import Mathlib

set_option maxHeartbeats 1000000

/- A shallow embedding of src/externs.js (the emscripten glue of brunhild).
   Modelling conventions:
   - Strings crossing the foreign boundary arrive already decoded
     (Pointer_stringify is the identity on the Lean side).
   - The browser DOM is a list of root nodes; an element's identifier is its
     "id" attribute; document.getElementById is a pre-order search.
   - An `html` argument of a mutation primitive is represented by the node
     list the host parser produces for it (setting `cont.innerHTML = html`
     yields exactly that child list, and `cont.firstChild` is its head).
   - A JavaScript null dereference surfaces as `JsError.typeError` in an
     `Except` result.
   - Returned C buffers are byte lists; Module._malloc(len) followed by
     stringToUTF8(s, buf, len) is modelled by the emscripten truncating
     UTF-8 writer `stringToUTF8`.
   - `el.matches(sel)` is host CSS machinery, passed in as a predicate. -/

namespace Brunhild

inductive Node where
  | element (tag : String) (attrs : List (String × String)) (children : List Node)
  | text (s : String)

abbrev Doc := List Node

def lookupStr (k : String) : List (String × String) → Option String
  | [] => none
  | (k', v) :: rest => if k' = k then some v else lookupStr k rest

def setAttrList (k v : String) : List (String × String) → List (String × String)
  | [] => [(k, v)]
  | (k', v') :: rest => if k' = k then (k, v) :: rest else (k', v') :: setAttrList k v rest

def eraseAttr (k : String) : List (String × String) → List (String × String)
  | [] => []
  | (k', v') :: rest => if k' = k then eraseAttr k rest else (k', v') :: eraseAttr k rest

/- document.getElementById: the first element in pre-order whose id attribute
   equals the given identifier, or none. -/
def findById (id : String) : List Node → Option Node
  | [] => none
  | .text _ :: ns => findById id ns
  | .element t a cs :: ns =>
    if lookupStr "id" a = some id then some (.element t a cs)
    else
      match findById id cs with
      | some e => some e
      | none => findById id ns

def getElementById (id : String) (doc : Doc) : Option Node := findById id doc

/- Replace the first element carrying the given id by `g` applied to it,
   splicing the result into its sibling list; the Bool reports whether the
   element was found. All DOM mutations of externs.js are instances. -/
def spliceById (id : String) (g : Node → List Node) : List Node → List Node × Bool
  | [] => ([], false)
  | .text s :: ns =>
    match spliceById id g ns with
    | (ns', f) => (.text s :: ns', f)
  | .element t a cs :: ns =>
    if lookupStr "id" a = some id then (g (.element t a cs) ++ ns, true)
    else
      match spliceById id g cs with
      | (cs', true) => (.element t a cs' :: ns, true)
      | (_, false) =>
        match spliceById id g ns with
        | (ns', f) => (.element t a cs :: ns', f)

inductive JsError where
  | typeError
deriving DecidableEq

def withChildren (cs : List Node) : Node → Node
  | .text s => .text s
  | .element t a _ => .element t a cs

def appendChildNode (n : Node) : Node → Node
  | .text s => .text s
  | .element t a cs => .element t a (cs ++ [n])

def prependChildNode (n : Node) : Node → Node
  | .text s => .text s
  | .element t a cs => .element t a (n :: cs)

def setAttrNode (k v : String) : Node → Node
  | .text s => .text s
  | .element t a cs => .element t (setAttrList k v a) cs

def removeAttrNode (k : String) : Node → Node
  | .text s => .text s
  | .element t a cs => .element t (eraseAttr k a) cs

/- externs.js set_outer_html: guarded; el.outerHTML = html replaces the
   element by the parsed fragment in place. -/
def set_outer_html (id : String) (html : List Node) (doc : Doc) : Except JsError Doc :=
  match getElementById id doc with
  | some _ => .ok (spliceById id (fun _ => html) doc).1
  | none => .ok doc

/- externs.js set_inner_html: guarded; el.innerHTML = html replaces the
   element's children by the parsed fragment. -/
def set_inner_html (id : String) (html : List Node) (doc : Doc) : Except JsError Doc :=
  match getElementById id doc with
  | some _ => .ok (spliceById id (fun el => [withChildren html el]) doc).1
  | none => .ok doc

/- externs.js append: if the element is missing, return; otherwise
   el.appendChild(cont.firstChild) - appendChild(null) throws when the
   fragment parsed to nothing, else only the FIRST parsed node is appended. -/
def append (id : String) (html : List Node) (doc : Doc) : Except JsError Doc :=
  match getElementById id doc with
  | none => .ok doc
  | some _ =>
    match html.head? with
    | none => .error .typeError
    | some n => .ok (spliceById id (fun el => [appendChildNode n el]) doc).1

/- externs.js prepend: el.insertBefore(cont.firstChild, el.firstChild)
   makes the first parsed node the new first child. -/
def prepend (id : String) (html : List Node) (doc : Doc) : Except JsError Doc :=
  match getElementById id doc with
  | none => .ok doc
  | some _ =>
    match html.head? with
    | none => .error .typeError
    | some n => .ok (spliceById id (fun el => [prependChildNode n el]) doc).1

/- externs.js before: el.parentNode.insertBefore(cont.firstChild, el)
   inserts the first parsed node as the sibling right before el. -/
def before (id : String) (html : List Node) (doc : Doc) : Except JsError Doc :=
  match getElementById id doc with
  | none => .ok doc
  | some _ =>
    match html.head? with
    | none => .error .typeError
    | some n => .ok (spliceById id (fun el => [n, el]) doc).1

/- externs.js after: el.parentNode.insertBefore(cont.firstChild,
   el.nextSibling) inserts the first parsed node right after el. -/
def after (id : String) (html : List Node) (doc : Doc) : Except JsError Doc :=
  match getElementById id doc with
  | none => .ok doc
  | some _ =>
    match html.head? with
    | none => .error .typeError
    | some n => .ok (spliceById id (fun el => [el, n]) doc).1

/- externs.js remove, translated exactly as written:
     var el = document.getElementById(id)
     if (!el) { el.remove() }
   When the element exists the guard is false and nothing happens; when it
   is missing, el is null and null.remove() throws a TypeError. -/
def remove (id : String) (doc : Doc) : Except JsError Doc :=
  match getElementById id doc with
  | some _ => .ok doc
  | none => .error .typeError

/- externs.js set_attr: guarded; el.setAttribute(key, val). -/
def set_attr (id : String) (key val : String) (doc : Doc) : Except JsError Doc :=
  match getElementById id doc with
  | none => .ok doc
  | some _ => .ok (spliceById id (fun el => [setAttrNode key val el]) doc).1

/- externs.js remove_attr: guarded; el.removeAttribute(key). -/
def remove_attr (id : String) (key : String) (doc : Doc) : Except JsError Doc :=
  match getElementById id doc with
  | none => .ok doc
  | some _ => .ok (spliceById id (fun el => [removeAttrNode key el]) doc).1

/- Host innerHTML getter: serialize an element's children to HTML text.
   (Browser behaviour, modelled plainly: text verbatim, elements as
   <tag k="v" ...>children</tag>.) -/
def attrsHtml : List (String × String) → String
  | [] => ""
  | (k, v) :: rest => " " ++ k ++ "=\"" ++ v ++ "\"" ++ attrsHtml rest

def htmlOfNodes : List Node → String
  | [] => ""
  | .text s :: ns => s ++ htmlOfNodes ns
  | .element t a cs :: ns =>
    "<" ++ t ++ attrsHtml a ++ ">" ++ htmlOfNodes cs ++ "</" ++ t ++ ">" ++ htmlOfNodes ns

def innerHTMLOf : Node → String
  | .text _ => ""
  | .element _ _ cs => htmlOfNodes cs

/- JavaScript String#length: the number of UTF-16 code units. -/
def utf16Units (c : Char) : Nat := if c.toNat < 0x10000 then 1 else 2

def jsLength (s : String) : Nat := s.data.foldr (fun c n => utf16Units c + n) 0

/- The number of bytes of the UTF-8 encoding of one code point. -/
def utf8Len (c : Char) : Nat :=
  if c.toNat < 0x80 then 1
  else if c.toNat < 0x800 then 2
  else if c.toNat < 0x10000 then 3
  else 4

/- The UTF-8 encoding of one code point, as bytes. -/
def utf8Enc (c : Char) : List Nat :=
  let n := c.toNat
  if n < 0x80 then [n]
  else if n < 0x800 then [0xC0 ||| (n >>> 6), 0x80 ||| (n &&& 0x3F)]
  else if n < 0x10000 then
    [0xE0 ||| (n >>> 12), 0x80 ||| ((n >>> 6) &&& 0x3F), 0x80 ||| (n &&& 0x3F)]
  else
    [0xF0 ||| (n >>> 18), 0x80 ||| ((n >>> 12) &&& 0x3F),
     0x80 ||| ((n >>> 6) &&& 0x3F), 0x80 ||| (n &&& 0x3F)]

/- The complete UTF-8 encoding of a string. -/
def utf8Str (s : String) : List Nat := s.data.foldr (fun c bs => utf8Enc c ++ bs) []

/- Code points written by emscripten stringToUTF8 given `room` content bytes:
   it stops at the first code point that no longer fits. -/
def writeChars : List Char → Nat → List Nat
  | [], _ => []
  | c :: cs, room =>
    if utf8Len c ≤ room then utf8Enc c ++ writeChars cs (room - utf8Len c) else []

/- emscripten stringToUTF8(s, buf, maxBytes): writes at most maxBytes bytes,
   always null-terminated when maxBytes > 0, truncating whole code points. -/
def stringToUTF8 (s : String) (maxBytes : Nat) : List Nat :=
  if maxBytes = 0 then [] else writeChars s.data (maxBytes - 1) ++ [0]

/- externs.js get_inner_html, the temporary `var s = el ? el.innerHTML : ""`:
   the element's inner HTML when the lookup succeeded, "" otherwise. -/
def innerHtmlString (id : String) (doc : Doc) : String :=
  ((getElementById id doc).map innerHTMLOf).getD ""

/- externs.js get_inner_html:
     var s = el ? el.innerHTML : ""
     var len = s.length + 1
     var buf = Module._malloc(len)
     stringToUTF8(s, buf, len)
     return buf
   The returned buffer contents. Note len counts UTF-16 units, not UTF-8
   bytes. -/
def get_inner_html (id : String) (doc : Doc) : List Nat :=
  stringToUTF8 (innerHtmlString id doc) (jsLength (innerHtmlString id doc) + 1)

/- Event delegation registry. Each call to register_listener builds a fresh
   handler closure; closures are distinguished by a creation counter, since
   addEventListener deduplicates only on function identity. A handler closure
   captures the decoded type and selector. -/
structure Handler where
  typ : String
  sel : String
  uid : Nat
deriving DecidableEq, Repr

/- window.__bh_handlers (undefined until first registration) together with
   the document's native listener list, in registration order, and the
   counter supplying closure identities. -/
structure RegState where
  handlers : Option (List (String × Handler))
  listeners : List (String × Handler)
  next : Nat
deriving DecidableEq, Repr

def initState : RegState := ⟨none, [], 0⟩

/- The key type + ":" + sel used in window.__bh_handlers. -/
def hkey (t s : String) : String := t ++ ":" ++ s

/- JavaScript object property read m[k]. -/
def lookupKey (k : String) : List (String × Handler) → Option Handler
  | [] => none
  | (k', h) :: rest => if k' = k then some h else lookupKey k rest

/- JavaScript object property write m[k] = h: overwrite in place or append. -/
def insertKey (k : String) (h : Handler) : List (String × Handler) → List (String × Handler)
  | [] => [(k, h)]
  | (k', h') :: rest => if k' = k then (k, h) :: rest else (k', h') :: insertKey k h rest

/- JavaScript delete m[k]. -/
def eraseKey (k : String) : List (String × Handler) → List (String × Handler)
  | [] => []
  | (k', h') :: rest => if k' = k then eraseKey k rest else (k', h') :: eraseKey k rest

/- document.removeEventListener(t, h): removes the first (and, addEventListener
   deduplicating, only) registration of that exact (type, callback) pair. -/
def removeFirstListener (t : String) (h : Handler) : List (String × Handler) → List (String × Handler)
  | [] => []
  | p :: ps => if p = (t, h) then ps else p :: removeFirstListener t h ps

/- externs.js register_listener: initialize window.__bh_handlers if absent,
   build a fresh handler closure, store it under type + ":" + sel
   (overwriting any previous one), and document.addEventListener(type,
   handler) - which appends unless that exact callback is already attached
   for that type (never the case for a fresh closure). -/
def register_listener (t s : String) (st : RegState) : RegState :=
  let m := st.handlers.getD []
  let h : Handler := ⟨t, s, st.next⟩
  let m' := insertKey (hkey t s) h m
  let ls := if (t, h) ∈ st.listeners then st.listeners else st.listeners ++ [(t, h)]
  ⟨some m', ls, st.next + 1⟩

/- externs.js unregister_listener:
     document.removeEventListener(type, window.__bh_handlers[key])
     delete window.__bh_handlers[key]
   Reading window.__bh_handlers[key] throws a TypeError when
   window.__bh_handlers is still undefined; removeEventListener with an
   undefined callback is a no-op. -/
def unregister_listener (t s : String) (st : RegState) : Except JsError RegState :=
  match st.handlers with
  | none => .error .typeError
  | some m =>
    let k := hkey t s
    let ls := match lookupKey k m with
      | some h => removeFirstListener t h st.listeners
      | none => st.listeners
    .ok ⟨some (eraseKey k m), ls, st.next⟩

/- The event target elements seen by a handler. -/
structure Element where
  attrs : List (String × String)
deriving DecidableEq, Repr

/- The snapshot object the handler builds:
     var attrs = {}; for each attribute: attrs[attr.name] = attr.value
   JavaScript property-write semantics, folded left over the attributes. -/
def snapshotOf (el : Element) : List (String × String) :=
  el.attrs.foldl (fun m kv => setAttrList kv.1 kv.2 m) []

def jsonEscapeChar (c : Char) : String :=
  if c = '"' then "\\\"" else if c = '\\' then "\\\\" else String.singleton c

def jsonEscape (s : String) : String := String.join (s.data.map jsonEscapeChar)

/- JSON.stringify on a string-to-string object. -/
def jsonStringify (m : List (String × String)) : String :=
  "\x7b" ++
    String.intercalate ","
      (m.map (fun kv => "\"" ++ jsonEscape kv.1 ++ "\":\"" ++ jsonEscape kv.2 ++ "\"")) ++
  "\x7d"

/- One handler closure run on a dispatched event whose target is el:
     if (sel && !(el.matches && el.matches(sel))) return
     ... delegate_event(type, sel, JSON.stringify(attrs))
   `m` is the host's Element#matches; the triples are the delegate_event
   calls made. -/
def fireHandler (m : Element → String → Bool) (h : Handler) (el : Element) :
    List (String × String × String) :=
  if h.sel ≠ "" ∧ m el h.sel = false then []
  else [(h.typ, h.sel, jsonStringify (snapshotOf el))]

/- Native dispatch of an event of type t at the document: every listener
   attached for t runs, in attachment order. -/
def dispatch (m : Element → String → Bool) (t : String) (el : Element) :
    List (String × Handler) → List (String × String × String)
  | [] => []
  | p :: ps => (if p.1 = t then fireHandler m p.2 el else []) ++ dispatch m t el ps

def dispatchSt (m : Element → String → Bool) (t : String) (el : Element) (st : RegState) :
    List (String × String × String) :=
  dispatch m t el st.listeners

/- The number of native listeners attached for the pair (t, s): listener
   entries attached for event type t whose closure captured (t, s). -/
def nativeCount (t s : String) : List (String × Handler) → Nat
  | [] => 0
  | p :: ps =>
    (if p.1 = t ∧ p.2.typ = t ∧ p.2.sel = s then 1 else 0) + nativeCount t s ps

def nativeCountSt (st : RegState) (t s : String) : Nat := nativeCount t s st.listeners

/- The number of forwarding entries stored under a key in the handler map. -/
def keyCount (k : String) : List (String × Handler) → Nat
  | [] => 0
  | (k', _) :: rest => (if k' = k then 1 else 0) + keyCount k rest

def keyCountSt (st : RegState) (t s : String) : Nat :=
  keyCount (hkey t s) (st.handlers.getD [])

/- Closure identities already attached are older than the counter; holds for
   every state reachable from initState. -/
def uidsBelow (st : RegState) : Prop := ∀ p ∈ st.listeners, p.2.uid < st.next

/- n successive register_listener calls for the same pair, from the pristine
   state. -/
def iterReg (t s : String) : Nat → RegState
  | 0 => initState
  | n + 1 => register_listener t s (iterReg t s n)

/- Concrete documents used to evaluate the primitives. -/

def docA : Doc := [Node.element "div" [("id", "a")] []]

def docB : Doc := [Node.element "div" [("id", "a")] [Node.text "x"]]

def docC : Doc :=
  [Node.element "div" [("id", "a")] [Node.text "é"],
   Node.element "p" [("id", "b")] [Node.text "hi"]]

/- A concrete matcher and target element. -/

def matchBtn : Element → String → Bool := fun _ sel => sel == ".btn"

def elBtn : Element := ⟨[("class", "btn"), ("data-x", "1")]⟩

/- Helper lemmas. -/

theorem nativeCount_append (t s : String) (xs ys : List (String × Handler)) :
    nativeCount t s (xs ++ ys) = nativeCount t s xs + nativeCount t s ys := by
  induction xs with
  | nil => simp [nativeCount]
  | cons p ps ih => simp [nativeCount, ih, Nat.add_assoc]

theorem lookupKey_insertKey_self (k : String) (h : Handler) (m : List (String × Handler)) :
    lookupKey k (insertKey k h m) = some h := by
  induction m with
  | nil => simp [insertKey, lookupKey]
  | cons p rest ih =>
    by_cases hk : p.1 = k
    · simp [insertKey, lookupKey, hk]
    · simp [insertKey, lookupKey, hk, ih]

theorem eraseKey_insertKey (k : String) (h : Handler) (m : List (String × Handler)) :
    eraseKey k (insertKey k h m) = eraseKey k m := by
  induction m with
  | nil => simp [insertKey, eraseKey]
  | cons p rest ih =>
    by_cases hk : p.1 = k
    · simp [insertKey, eraseKey, hk]
    · simp [insertKey, eraseKey, hk, ih]

theorem keyCount_eraseKey (k : String) (m : List (String × Handler)) :
    keyCount k (eraseKey k m) = 0 := by
  induction m with
  | nil => simp [eraseKey, keyCount]
  | cons p rest ih =>
    by_cases hk : p.1 = k
    · simp [eraseKey, keyCount, hk, ih]
    · simp [eraseKey, keyCount, hk, ih]

theorem keyCount_insertKey (k : String) (h : Handler) (m : List (String × Handler))
    (hm : keyCount k m ≤ 1) : keyCount k (insertKey k h m) = 1 := by
  induction m with
  | nil => simp [insertKey, keyCount]
  | cons p rest ih =>
    by_cases hk : p.1 = k
    · have h0 : keyCount k rest = 0 := by
        simp [keyCount, hk] at hm
        omega
      simp [insertKey, keyCount, hk, h0]
    · simp [keyCount, hk] at hm
      simp [insertKey, keyCount, hk, ih hm]

theorem eraseKey_lookup_none (k : String) (m : List (String × Handler))
    (h : lookupKey k m = none) : eraseKey k m = m := by
  induction m with
  | nil => simp [eraseKey]
  | cons p rest ih =>
    by_cases hk : p.1 = k
    · simp [lookupKey, hk] at h
    · simp [lookupKey, hk] at h
      simp [eraseKey, hk, ih h]

theorem removeFirst_not_mem_append (t : String) (h : Handler)
    (xs : List (String × Handler)) (hx : (t, h) ∉ xs) :
    removeFirstListener t h (xs ++ [(t, h)]) = xs := by
  induction xs with
  | nil => simp [removeFirstListener]
  | cons p ps ih =>
    simp only [List.mem_cons, not_or] at hx
    simp [removeFirstListener, Ne.symm hx.1, ih hx.2]

theorem dispatch_no_pair (t s : String) (ls : List (String × Handler))
    (h0 : nativeCount t s ls = 0) (m : Element → String → Bool) (el : Element) :
    ∀ x ∈ dispatch m t el ls, ¬(x.1 = t ∧ x.2.1 = s) := by
  induction ls with
  | nil => simp [dispatch]
  | cons p ps ih =>
    intro x hx
    simp only [dispatch, List.mem_append] at hx
    rcases hx with hx | hx
    · by_cases hp : p.1 = t
      · simp only [hp, if_pos rfl, fireHandler] at hx
        rcases Classical.em (p.2.sel ≠ "" ∧ m el p.2.sel = false) with hc | hc
        · simp [hc] at hx
        · simp [hc] at hx
          rintro ⟨h1, h2⟩
          subst hx
          simp only at h1 h2
          have : (if p.1 = t ∧ p.2.typ = t ∧ p.2.sel = s then 1 else 0) +
              nativeCount t s ps = 0 := h0
          rw [if_pos ⟨hp, h1, h2⟩] at this
          omega
      · simp [hp] at hx
    · have hps : nativeCount t s ps = 0 := by
        simp only [nativeCount] at h0
        omega
      exact ih hps x hx

theorem register_fresh_not_mem (t s : String) (st : RegState) (hw : uidsBelow st) :
    (t, (⟨t, s, st.next⟩ : Handler)) ∉ st.listeners := by
  intro hmem
  have := hw _ hmem
  simp at this

theorem register_listeners_eq (t s : String) (st : RegState) (hw : uidsBelow st) :
    (register_listener t s st).listeners = st.listeners ++ [(t, ⟨t, s, st.next⟩)] := by
  simp [register_listener, register_fresh_not_mem t s st hw]

theorem uidsBelow_register (t s : String) (st : RegState) (hw : uidsBelow st) :
    uidsBelow (register_listener t s st) := by
  intro p hp
  rw [register_listeners_eq t s st hw] at hp
  simp only [register_listener]
  rcases List.mem_append.mp hp with h | h
  · exact Nat.lt_succ_of_lt (hw _ h)
  · simp at h
    rw [h]
    exact Nat.lt_succ_self _

theorem setAttrList_not_mem (k v : String) (m : List (String × String))
    (h : k ∉ m.map Prod.fst) : setAttrList k v m = m ++ [(k, v)] := by
  induction m with
  | nil => simp [setAttrList]
  | cons p rest ih =>
    simp only [List.map_cons, List.mem_cons, not_or] at h
    simp [setAttrList, Ne.symm h.1, ih h.2]

theorem foldl_setAttrList (l : List (String × String)) :
    ∀ acc : List (String × String), (∀ kv ∈ l, kv.1 ∉ acc.map Prod.fst) →
      (l.map Prod.fst).Nodup →
      l.foldl (fun m kv => setAttrList kv.1 kv.2 m) acc = acc ++ l := by
  induction l with
  | nil => simp
  | cons kv rest ih =>
    intro acc hdisj hnd
    simp only [List.foldl_cons]
    rw [setAttrList_not_mem kv.1 kv.2 acc (hdisj kv (List.mem_cons_self kv rest))]
    simp only [List.map_cons, List.nodup_cons] at hnd
    rw [ih (acc ++ [kv]) ?_ hnd.2]
    · simp
    · intro kv' hkv'
      simp only [List.map_append, List.mem_append, not_or]
      refine ⟨hdisj kv' (List.mem_cons_of_mem kv hkv'), ?_⟩
      simp only [List.map_cons, List.map_nil, List.mem_singleton]
      intro heq
      exact hnd.1 (heq ▸ List.mem_map_of_mem Prod.fst hkv')

theorem snapshotOf_nodup (el : Element) (h : (el.attrs.map Prod.fst).Nodup) :
    snapshotOf el = el.attrs := by
  have := foldl_setAttrList el.attrs [] (by simp) h
  simpa [snapshotOf] using this

theorem lookupStr_of_mem_nodup (k v : String) (l : List (String × String))
    (hmem : (k, v) ∈ l) (hnd : (l.map Prod.fst).Nodup) : lookupStr k l = some v := by
  induction l with
  | nil => simp at hmem
  | cons p rest ih =>
    simp only [List.map_cons, List.nodup_cons] at hnd
    rcases List.mem_cons.mp hmem with h | h
    · simp [lookupStr, ← h]
    · have hne : p.1 ≠ k := by
        intro heq
        exact hnd.1 (heq ▸ List.mem_map_of_mem Prod.fst h)
      simp [lookupStr, hne, ih h hnd.2]

theorem iterReg_invariant (t s : String) (n : Nat) :
    uidsBelow (iterReg t s n) ∧ nativeCountSt (iterReg t s n) t s = n ∧
    keyCountSt (iterReg t s n) t s = min n 1 := by
  induction n with
  | zero =>
    refine ⟨?_, ?_, ?_⟩
    · intro p hp
      simp [iterReg, initState] at hp
    · simp [iterReg, initState, nativeCountSt, nativeCount]
    · simp [iterReg, initState, keyCountSt, keyCount]
  | succ n ih =>
    obtain ⟨hw, hn, hk⟩ := ih
    refine ⟨uidsBelow_register t s _ hw, ?_, ?_⟩
    · simp only [iterReg, nativeCountSt]
      rw [register_listeners_eq t s _ hw, nativeCount_append]
      simp only [nativeCountSt] at hn
      simp [nativeCount, hn]
    · simp only [iterReg, keyCountSt, register_listener, Option.getD_some]
      rw [keyCount_insertKey]
      · omega
      · simp only [keyCountSt] at hk
        rw [hk]
        omega

/-- Claim C1, counterexample: registering the same ("click", ".btn") pair
twice from the pristine state attaches two native listeners at the shared
document root, not one, because each register_listener call creates a fresh
handler closure and addEventListener does not deduplicate distinct
closures. -/
theorem register_listener_not_idempotent :
    nativeCountSt (register_listener "click" ".btn"
      (register_listener "click" ".btn" initState)) "click" ".btn" = 2 ∧
    nativeCountSt (register_listener "click" ".btn"
      (register_listener "click" ".btn" initState)) "click" ".btn" ≠ 1 := by
  decide

/-- Claim C1, amended: a sequence of n register_listener(t, s) calls for the
same pair results in n native listeners attached at the shared document root
(one per call, register is NOT idempotent), while the forwarding map
window.__bh_handlers keeps exactly one entry for the pair as soon as n ≥ 1
(each call overwrites it). -/
theorem register_listener_accumulates (t s : String) (n : Nat) :
    nativeCountSt (iterReg t s n) t s = n ∧
    (0 < n → keyCountSt (iterReg t s n) t s = 1) := by
  obtain ⟨-, hn, hk⟩ := iterReg_invariant t s n
  refine ⟨hn, fun hpos => ?_⟩
  rw [hk]
  omega

/-- Witness for the amended C1 at n = 2 concrete calls. -/
theorem register_listener_accumulates_witness :
    nativeCountSt (iterReg "click" ".btn" 2) "click" ".btn" = 2 ∧
    keyCountSt (iterReg "click" ".btn" 2) "click" ".btn" = 1 :=
  ⟨(register_listener_accumulates "click" ".btn" 2).1,
   (register_listener_accumulates "click" ".btn" 2).2 (by decide)⟩

/-- Claim C4, counterexample: in the state where no registration has ever
occurred, window.__bh_handlers is still undefined, so
unregister_listener("click", ".btn") throws a TypeError when it reads
window.__bh_handlers[key] - it is not a no-op there. -/
theorem unregister_uninitialized_throws :
    unregister_listener "click" ".btn" initState = Except.error JsError.typeError := rfl

/-- Claim C4, amended: once any registration has occurred (the handler map
exists), unregister_listener on a pair that is not registered raises no
error and leaves the whole registry state unchanged:
removeEventListener with an undefined callback and delete of a missing
property are both no-ops. -/
theorem unregister_unregistered_noop (t s : String) (st : RegState)
    (m : List (String × Handler)) (hm : st.handlers = some m)
    (hk : lookupKey (hkey t s) m = none) :
    unregister_listener t s st = Except.ok st := by
  cases st with
  | mk hs ls nx =>
    simp only at hm
    subst hm
    simp [unregister_listener, hk, eraseKey_lookup_none _ _ hk]

/-- Witness for the amended C4: a state with an initialized empty handler
map is returned untouched. -/
theorem unregister_unregistered_noop_witness :
    unregister_listener "click" ".btn" ⟨some [], [], 0⟩ =
      Except.ok (⟨some [], [], 0⟩ : RegState) :=
  unregister_unregistered_noop "click" ".btn" ⟨some [], [], 0⟩ [] rfl rfl

/-- Claim C7: from any state with no native listener for the pair (t, s)
(closure counter well-formed), register_listener(t, s) followed by
unregister_listener(t, s) succeeds and leaves no native listener for the
pair, no forwarding entry under its key, and no dispatched event of type t
can ever be forwarded with (t, s) again. -/
theorem register_then_unregister_removes_all (t s : String) (st : RegState)
    (hw : uidsBelow st) (h0 : nativeCountSt st t s = 0) :
    ∃ st', unregister_listener t s (register_listener t s st) = Except.ok st' ∧
      nativeCountSt st' t s = 0 ∧ keyCountSt st' t s = 0 ∧
      ∀ (m : Element → String → Bool) (el : Element),
        ∀ x ∈ dispatchSt m t el st', ¬(x.1 = t ∧ x.2.1 = s) := by
  refine ⟨⟨some (eraseKey (hkey t s) (st.handlers.getD [])), st.listeners, st.next + 1⟩,
    ?_, ?_, ?_, ?_⟩
  · have hnm := register_fresh_not_mem t s st hw
    simp [register_listener, unregister_listener, lookupKey_insertKey_self,
      eraseKey_insertKey, hnm, removeFirst_not_mem_append t _ st.listeners hnm]
  · exact h0
  · simp [keyCountSt, keyCount_eraseKey]
  · intro m el
    exact dispatch_no_pair t s st.listeners h0 m el

/-- Witness for C7 from the pristine state with the concrete pair
("click", ".btn"). -/
theorem register_then_unregister_removes_all_witness :
    ∃ st', unregister_listener "click" ".btn"
        (register_listener "click" ".btn" initState) = Except.ok st' ∧
      nativeCountSt st' "click" ".btn" = 0 ∧ keyCountSt st' "click" ".btn" = 0 ∧
      ∀ (m : Element → String → Bool) (el : Element),
        ∀ x ∈ dispatchSt m "click" el st', ¬(x.1 = "click" ∧ x.2.1 = ".btn") :=
  register_then_unregister_removes_all "click" ".btn" initState
    (fun p hp => absurd hp (by simp [initState])) (by decide)

/-- Claim C5: with (t, s) registered, a dispatched native event of type t
whose target matches s causes exactly one forwarded call
delegate_event(t, s, JSON.stringify(snapshot)); a non-matching target (for a
nonempty selector) forwards nothing; and the snapshot object maps every
attribute name of the target to its value. -/
theorem delegated_event_forwarding (t s : String) (m : Element → String → Bool)
    (el : Element) (hnd : (el.attrs.map Prod.fst).Nodup) :
    (m el s = true →
      dispatchSt m t el (register_listener t s initState) =
        [(t, s, jsonStringify (snapshotOf el))]) ∧
    (s ≠ "" → m el s = false →
      dispatchSt m t el (register_listener t s initState) = []) ∧
    (∀ kv ∈ el.attrs, lookupStr kv.1 (snapshotOf el) = some kv.2) := by
  refine ⟨?_, ?_, ?_⟩
  · intro hm
    simp [register_listener, initState, dispatchSt, dispatch, fireHandler, hm]
  · intro hs hm
    simp [register_listener, initState, dispatchSt, dispatch, fireHandler, hs, hm]
  · intro kv hkv
    rw [snapshotOf_nodup el hnd]
    exact lookupStr_of_mem_nodup kv.1 kv.2 el.attrs hkv hnd

/-- Witness for C5 with a concrete matcher and a concrete two-attribute
target element. -/
theorem delegated_event_forwarding_witness :
    (matchBtn elBtn ".btn" = true →
      dispatchSt matchBtn "click" elBtn (register_listener "click" ".btn" initState) =
        [("click", ".btn", jsonStringify (snapshotOf elBtn))]) ∧
    (".btn" ≠ "" → matchBtn elBtn ".btn" = false →
      dispatchSt matchBtn "click" elBtn (register_listener "click" ".btn" initState) = []) ∧
    (∀ kv ∈ elBtn.attrs, lookupStr kv.1 (snapshotOf elBtn) = some kv.2) :=
  delegated_event_forwarding "click" ".btn" matchBtn elBtn (by decide)

/-- Claim C9: a pair registered with the empty-string selector forwards on
every dispatched event of its type, for every target element and every host
matching predicate - the selector test is short-circuited by `sel &&`. -/
theorem empty_selector_matches_all (t : String) (m : Element → String → Bool)
    (el : Element) :
    dispatchSt m t el (register_listener t "" initState) =
      [(t, "", jsonStringify (snapshotOf el))] := by
  simp [register_listener, initState, dispatchSt, dispatch, fireHandler]

/-- Claim C2, evaluated at the failing input: in a document holding the live
element div#a, remove("a") completes but leaves the document - and the
element - untouched, because the guard in externs.js remove is inverted
(`if (!el) el.remove()`); on a missing id the same inverted guard
dereferences null and throws. -/
theorem remove_never_removes :
    getElementById "a" docA = some (Node.element "div" [("id", "a")] []) ∧
    remove "a" docA = Except.ok docA ∧
    remove "missing" docA = Except.error JsError.typeError := by
  refine ⟨?_, ?_, ?_⟩
  · simp +decide [docA, getElementById, findById, lookupStr]
  · simp +decide [remove, docA, getElementById, findById, lookupStr]
  · simp +decide [remove, docA, getElementById, findById, lookupStr]

/-- Claim C3, evaluated at the failing input: on an identifier with no live
element, eight of the nine mutation primitives return with the document
unchanged and no error, but remove throws a TypeError (null dereference from
its inverted guard), so MissingTarget is fatal for remove. -/
theorem missing_target_nonfatal_except_remove :
    (∀ html, set_outer_html "x" html docA = Except.ok docA) ∧
    (∀ html, set_inner_html "x" html docA = Except.ok docA) ∧
    (∀ html, append "x" html docA = Except.ok docA) ∧
    (∀ html, prepend "x" html docA = Except.ok docA) ∧
    (∀ html, before "x" html docA = Except.ok docA) ∧
    (∀ html, after "x" html docA = Except.ok docA) ∧
    (∀ k v, set_attr "x" k v docA = Except.ok docA) ∧
    (∀ k, remove_attr "x" k docA = Except.ok docA) ∧
    remove "x" docA = Except.error JsError.typeError := by
  have hx : getElementById "x" docA = none := by
    simp +decide [docA, getElementById, findById, lookupStr]
  refine ⟨?_, ?_, ?_, ?_, ?_, ?_, ?_, ?_, ?_⟩
  · intro html
    simp [set_outer_html, hx]
  · intro html
    simp [set_inner_html, hx]
  · intro html
    simp [append, hx]
  · intro html
    simp [prepend, hx]
  · intro html
    simp [before, hx]
  · intro html
    simp [after, hx]
  · intro k v
    simp [set_attr, hx]
  · intro k
    simp [remove_attr, hx]
  · simp [remove, hx]

/-- Claim C8: each insertion primitive uses only the head of the parsed
fragment - the result never depends on the remaining top-level siblings -
and on a live target the head lands at the respective position: append as
last child, prepend as first child, before as the preceding sibling, after
as the following sibling (shown on a concrete document, the second parsed
node being discarded). -/
theorem insertion_uses_first_parsed_node :
    (∀ id n rest doc, append id (n :: rest) doc = append id [n] doc) ∧
    (∀ id n rest doc, prepend id (n :: rest) doc = prepend id [n] doc) ∧
    (∀ id n rest doc, before id (n :: rest) doc = before id [n] doc) ∧
    (∀ id n rest doc, after id (n :: rest) doc = after id [n] doc) ∧
    append "a" [Node.text "y", Node.text "z"] docB =
      Except.ok [Node.element "div" [("id", "a")] [Node.text "x", Node.text "y"]] ∧
    prepend "a" [Node.text "y", Node.text "z"] docB =
      Except.ok [Node.element "div" [("id", "a")] [Node.text "y", Node.text "x"]] ∧
    before "a" [Node.text "y", Node.text "z"] docB =
      Except.ok [Node.text "y", Node.element "div" [("id", "a")] [Node.text "x"]] ∧
    after "a" [Node.text "y", Node.text "z"] docB =
      Except.ok [Node.element "div" [("id", "a")] [Node.text "x"], Node.text "y"] := by
  refine ⟨?_, ?_, ?_, ?_, ?_, ?_, ?_, ?_⟩
  · intro id n rest doc
    cases h : getElementById id doc <;> simp [append, h]
  · intro id n rest doc
    cases h : getElementById id doc <;> simp [prepend, h]
  · intro id n rest doc
    cases h : getElementById id doc <;> simp [before, h]
  · intro id n rest doc
    cases h : getElementById id doc <;> simp [after, h]
  · simp +decide [append, docB, getElementById, findById, lookupStr, spliceById,
      appendChildNode]
  · simp +decide [prepend, docB, getElementById, findById, lookupStr, spliceById,
      prependChildNode]
  · simp +decide [before, docB, getElementById, findById, lookupStr, spliceById]
  · simp +decide [after, docB, getElementById, findById, lookupStr, spliceById]

/-- Claim C6, evaluated at the failing input: the buffer returned for an
element whose inner HTML is the single non-ASCII character "é" holds only
the null terminator - the character is truncated away - because the
allocation counts UTF-16 units (s.length + 1 = 2) while the complete UTF-8
encoding needs 2 content bytes plus the terminator; on ASCII content the
buffer does hold the complete encoding. -/
theorem get_inner_html_truncates_nonascii :
    get_inner_html "a" docC = [0] ∧
    utf8Str "é" ++ [0] = [195, 169, 0] ∧
    get_inner_html "a" docC ≠ utf8Str "é" ++ [0] ∧
    get_inner_html "b" docC = utf8Str "hi" ++ [0] := by
  have hfa : getElementById "a" docC =
      some (Node.element "div" [("id", "a")] [Node.text "é"]) := by
    simp +decide [docC, getElementById, findById, lookupStr]
  have hfb : getElementById "b" docC =
      some (Node.element "p" [("id", "b")] [Node.text "hi"]) := by
    simp +decide [docC, getElementById, findById, lookupStr]
  have hsa : innerHtmlString "a" docC = "é" := by
    simp only [innerHtmlString, hfa, Option.map_some', Option.getD_some]
    simp [innerHTMLOf, htmlOfNodes]
  have hsb : innerHtmlString "b" docC = "hi" := by
    simp only [innerHtmlString, hfb, Option.map_some', Option.getD_some]
    simp [innerHTMLOf, htmlOfNodes]
  refine ⟨?_, ?_, ?_, ?_⟩
  · simp only [get_inner_html, hsa]
    decide
  · decide
  · simp only [get_inner_html, hsa]
    decide
  · simp only [get_inner_html, hsb]
    decide

/-- Claim C10: whenever the identifier names no live element,
get_inner_html returns the null-terminated empty string (a single zero
byte) rather than failing: the code substitutes "" for the missing
element's inner HTML before allocating. -/
theorem get_inner_html_missing_returns_empty (id : String) (doc : Doc)
    (h : getElementById id doc = none) :
    get_inner_html id doc = [0] := by
  have hs : innerHtmlString id doc = "" := by
    simp only [innerHtmlString, h, Option.map_none', Option.getD_none]
  simp only [get_inner_html, hs]
  decide

/-- Witness for C10: an identifier absent from the empty document. -/
theorem get_inner_html_missing_returns_empty_witness :
    get_inner_html "x" [] = [0] :=
  get_inner_html_missing_returns_empty "x" []
    (by simp [getElementById, findById])

end Brunhild
